import Mathlib

/-!
Verification of the document-retrieval core of `gen_ai/common/document_retriever.py`.

The Python module is shallowly embedded: Python `dict[str, str]` metadata
scopes become association lists with unique keys (`Dict`), the Chroma vector
store becomes an opaque structure of query functions (`Chroma`), and the
retrieval methods become pure Lean functions translated statement by
statement from the source.  Mutation of dictionaries (Python `del d[k]`,
`d[k] = v` after `copy.deepcopy`) is additionally modelled by a small
heap semantics (`Heap`) used to state the no-mutation (frame) properties.

`common.remove_duplicates` and `chroma_utils.convert_to_chroma_format` are
imported by the module but their defining files are not part of the sources
at hand; they are modelled from the specification, as marked on their doc
comments.
-/

/-- A retrieved unit of content, as `langchain_core.documents.base.Document`:
a text body plus a string-keyed metadata mapping.  Structural equality on
(content, metadata) is the identity used for duplicate detection. -/
structure Document where
  content : String
  metadata : List (String × String)
deriving DecidableEq, Repr

/-- A Python `dict[str, str]`: an insertion-ordered association list with
unique keys. -/
abbrev Dict := List (String × String)

/-- Python `k in d` on a dict. -/
def dictContains (d : Dict) (k : String) : Bool :=
  d.any (fun p => p.1 == k)

/-- Python `del d[k]`-result as a value: the dict without key `k`. -/
def dictErase (d : Dict) (k : String) : Dict :=
  d.filter (fun p => p.1 != k)

/-- Python `d[k] = v` as a value: update in place if the key exists
(keeping its position), otherwise append the new entry. -/
def dictSet (d : Dict) (k : String) (v : String) : Dict :=
  if dictContains d k then d.map (fun p => if p.1 == k then (k, v) else p)
  else d ++ [(k, v)]

/-- The filter value passed to the vector store: either a plain metadata
dict, or the conjunctive (Chroma `$and`-of-equalities) form. -/
inductive FilterPredicate where
  | plain (d : Dict)
  | conj (constraints : Dict)
deriving DecidableEq, Repr

/-- Modelled from the spec: `chroma_utils.convert_to_chroma_format` is not
among the sources at hand.  Per the spec (§4.1) it translates the mapping
into the conjunctive predicate form required by the VectorIndex: an AND of
equality constraints over the remaining entries of the map. -/
def convert_to_chroma_format (metadata : Dict) : FilterPredicate :=
  FilterPredicate.conj metadata

/-- Translation of `remove_member_id` (document_retriever.py lines 25-40): deep-copies the
input dict and deletes the "member_id" key from the copy if present.  At
the value level the deep copy is the identity; the heap-level version
`remove_member_idH` below models the copying itself. -/
def remove_member_id (metadata : Dict) : Dict :=
  let new_metadata := metadata
  if dictContains new_metadata "member_id" then dictErase new_metadata "member_id"
  else new_metadata

/-- Recursor for the spec-modelled deduplication: keeps each document not
already in `seen`, threading the documents kept so far through `seen`. -/
def dedupeAux (seen : List Document) : List Document → List Document
  | [] => []
  | d :: rest => if d ∈ seen then dedupeAux seen rest else d :: dedupeAux (d :: seen) rest

/-- Modelled from the spec: `common.remove_duplicates` is not among the
sources at hand.  Per the spec (§4.3) it deduplicates with stable
first-seen order, two documents being the same iff their content body and
metadata are both structurally equal (which is exactly `Document` equality
here), using a linear seen-set pass. -/
def remove_duplicates (docs : List Document) : List Document :=
  dedupeAux [] docs

/-- The Chroma vector store, opaque nearest-neighbour service: similarity
search returning (document, score) pairs and MMR diversity search taking a
relevance/diversity trade-off coefficient. -/
structure Chroma where
  similarity_search_with_score : (query : String) → (k : Nat) → List (Document × Rat)
  max_marginal_relevance_search : (query : String) → (k : Nat) → (lambda_mult : Rat) → List Document

/-- Lines 127-131 of `get_related_docs_from_store`: default absent metadata
to `{}`, strip "member_id", and translate to the Chroma conjunctive form
only when more than one key remains. -/
def prepare_filter (metadata : Option Dict) : FilterPredicate :=
  let metadata0 : Dict := match metadata with | none => [] | some m => m
  let metadata1 := remove_member_id metadata0
  if 1 < metadata1.length then convert_to_chroma_format metadata1
  else FilterPredicate.plain metadata1

/-- Translation of `SemanticDocumentRetriever.get_related_docs_from_store` (lines 123-141):
prepares the filter (which the current code then never forwards), asks for
the top 50 similarity hits, keeps the first 20, asks for 1 MMR hit with
`lambda_mult=0.5`, concatenates and deduplicates. -/
def get_related_docs_from_store (store : Chroma) (questions_for_search : String)
    (metadata : Option Dict) : List Document :=
  let _filt : FilterPredicate := prepare_filter metadata
  let ss_docs := store.similarity_search_with_score questions_for_search 50
  let ss_docs := (ss_docs.take 20).map Prod.fst
  let mmr_docs := store.max_marginal_relevance_search questions_for_search 1 (1 / 2)
  let docs := remove_duplicates (ss_docs ++ mmr_docs)
  docs

/-- Translation of `DocumentRetriever.get_multiple_related_docs_from_store` (lines 79-86):
extend an accumulator with each query's retrieval, then deduplicate once. -/
def get_multiple_related_docs_from_store (store : Chroma) (questions_for_search : List String)
    (metadata : Option Dict) : List Document :=
  let documents := questions_for_search.foldl
    (fun documents question => documents ++ get_related_docs_from_store store question metadata) []
  remove_duplicates documents

/-- Translation of `SemanticDocumentRetriever.get_related_docs_from_store_uhg`
(lines 142-163): if the scope is absent or lacks "set_number", retrieve
once with the forced `{"data_source": "kc"}` scope; otherwise derive the
b360 scope (set "data_source" to "b360") and the kc scope (set
"data_source" to "kc", delete "set_number"), retrieve once per derived
scope in that order and return the concatenation. -/
def get_related_docs_from_store_uhg (store : Chroma) (questions_for_search : String)
    (metadata : Option Dict) : List Document :=
  if metadata.isNone || !(dictContains (metadata.getD []) "set_number") then
    let custom_metadata : Dict := [("data_source", "kc")]
    get_related_docs_from_store store questions_for_search (some custom_metadata)
  else
    let m := metadata.getD []
    let b360_metadata := dictSet m "data_source" "b360"
    let kc_metadata := dictSet m "data_source" "kc"
    let kc_metadata :=
      if dictContains kc_metadata "set_number" then dictErase kc_metadata "set_number"
      else kc_metadata
    let metadatas := [b360_metadata, kc_metadata]
    metadatas.foldl
      (fun docs metadata => docs ++ get_related_docs_from_store store questions_for_search (some metadata)) []

/-- The retriever implementation chosen by the provider. -/
inductive DocumentRetrieverImpl where
  | semantic
deriving DecidableEq, Repr

/-- Translation of `DocumentRetrieverProvider.__call__` (lines 43-48): the name "semantic"
yields the semantic retriever, any other name raises
`ValueError("Not implemented document retriver")`. -/
def DocumentRetrieverProvider_call (name : String) : Except String DocumentRetrieverImpl :=
  if name == "semantic" then Except.ok DocumentRetrieverImpl.semantic
  else Except.error "Not implemented document retriver"

/-- The list of scopes the routed retrieval passes to the single-query
retrieval, stated from the claim: the forced default `{"data_source":"kc"}`
when the scoping key is absent, otherwise the b360-tagged copy keeping
"set_number" followed by the kc-tagged copy with "set_number" removed. -/
def routedScopesSpec (metadata : Option Dict) : List Dict :=
  match metadata with
  | none => [[("data_source", "kc")]]
  | some m =>
    if dictContains m "set_number" then
      [dictSet m "data_source" "b360", dictErase (dictSet m "data_source" "kc") "set_number"]
    else [[("data_source", "kc")]]

/-- Whether the scope is present and carries the scoping key "set_number". -/
def hasSetNumber (metadata : Option Dict) : Bool :=
  match metadata with
  | none => false
  | some m => dictContains m "set_number"

/-! ### Heap model of dictionary mutation

Python dicts are mutable heap objects; `copy.deepcopy` allocates a fresh
one.  To state that the retrieval operations never mutate the
caller-supplied scope, the scope-handling statements of each operation are
re-traced over an explicit heap: a list of dict values addressed by index.
Every `copy.deepcopy` becomes an allocation, every `del`/assignment a
`heapSet` on the freshly allocated address. -/

/-- The heap: dict objects addressed by their index. -/
abbrev Heap := List Dict

/-- Read the dict at address `r` (missing addresses read as `{}`). -/
def heapGet (h : Heap) (r : Nat) : Dict := h[r]?.getD []

/-- Overwrite the dict at address `r`. -/
def heapSet (h : Heap) (r : Nat) (d : Dict) : Heap := h.set r d

/-- Allocate a fresh dict object, returning the new heap and its address. -/
def heapAlloc (h : Heap) (d : Dict) : Heap × Nat := (h ++ [d], h.length)

/-- Heap-level `remove_member_id` (lines 37-40): `copy.deepcopy` allocates
the copy, the conditional `del` mutates only the copy. -/
def remove_member_idH (h : Heap) (metadata : Nat) : Heap × Nat :=
  let al := heapAlloc h (heapGet h metadata)
  let h1 := al.1
  let new_metadata := al.2
  let h2 :=
    if dictContains (heapGet h1 new_metadata) "member_id" then
      heapSet h1 new_metadata (dictErase (heapGet h1 new_metadata) "member_id")
    else h1
  (h2, new_metadata)

/-- Heap-level scope handling of `get_related_docs_from_store`
(lines 127-131): the only dict operations the single-query retrieval
performs.  `metadata = {}` on an absent scope allocates a fresh empty dict;
rebinding the local name to `remove_member_id`'s result and to the chroma
translation touches no caller object. -/
def get_related_docs_scopeH (h : Heap) (metadata : Option Nat) : Heap × FilterPredicate :=
  let st :=
    match metadata with
    | none => heapAlloc h []
    | some r => (h, r)
  let h0 := st.1
  let r0 := st.2
  let rm := remove_member_idH h0 r0
  let h1 := rm.1
  let r1 := rm.2
  let d1 := heapGet h1 r1
  (h1, if 1 < d1.length then convert_to_chroma_format d1 else FilterPredicate.plain d1)

/-- Heap-level scope handling of `get_multiple_related_docs_from_store`
(lines 79-86): one single-query scope handling per question, the same
caller scope address passed to each. -/
def get_multiple_scopesH (h : Heap) (questions : List String) (metadata : Option Nat) :
    Heap × List FilterPredicate :=
  match questions with
  | [] => (h, [])
  | _question :: rest =>
    let st := get_related_docs_scopeH h metadata
    let next := get_multiple_scopesH st.1 rest metadata
    (next.1, st.2 :: next.2)

/-- Heap-level scope handling of `get_related_docs_from_store_uhg`
(lines 142-163): the forced default scope is a fresh allocation; in the
two-partition branch each derived scope is `copy.deepcopy`-allocated and
then mutated in place, and each is handed to the single-query scope
handling. -/
def get_related_docs_from_store_uhgH (h : Heap) (metadata : Option Nat) :
    Heap × List FilterPredicate :=
  if metadata.isNone || !(dictContains (heapGet h (metadata.getD 0)) "set_number") then
    let al := heapAlloc h [("data_source", "kc")]
    let st := get_related_docs_scopeH al.1 (some al.2)
    (st.1, [st.2])
  else
    let r := metadata.getD 0
    let al1 := heapAlloc h (heapGet h r)
    let h1 := heapSet al1.1 al1.2 (dictSet (heapGet al1.1 al1.2) "data_source" "b360")
    let b360 := al1.2
    let al2 := heapAlloc h1 (heapGet h1 r)
    let h2 := heapSet al2.1 al2.2 (dictSet (heapGet al2.1 al2.2) "data_source" "kc")
    let kc := al2.2
    let h3 :=
      if dictContains (heapGet h2 kc) "set_number" then
        heapSet h2 kc (dictErase (heapGet h2 kc) "set_number")
      else h2
    let st1 := get_related_docs_scopeH h3 (some b360)
    let st2 := get_related_docs_scopeH st1.1 (some kc)
    (st2.1, [st1.2, st2.2])

/-! ### Witness fixtures: concrete stores and documents -/

/-- A concrete document used in counterexamples. -/
def cexDoc : Document := ⟨"only", []⟩

/-- A concrete store returning one similarity hit and no MMR hit. -/
def cexStore : Chroma where
  similarity_search_with_score := fun _q _k => [(cexDoc, 0)]
  max_marginal_relevance_search := fun _q _k _l => []

/-- The i-th concrete witness document. -/
def witDoc (i : Nat) : Document := ⟨toString i, []⟩

/-- A concrete store matching the spec scenario: 50 similarity hits whose
first 20 are pairwise distinct and whose later items repeat earlier ones,
plus one MMR hit duplicating item 3. -/
def witStore : Chroma where
  similarity_search_with_score := fun _q _k => (List.range 50).map (fun i => (witDoc (i % 20), 0))
  max_marginal_relevance_search := fun _q _k _l => [witDoc 3]

/-! ### Helper lemmas on dictionaries -/

theorem dictContains_iff (d : Dict) (k : String) :
    dictContains d k = true ↔ ∃ p ∈ d, p.1 = k := by
  simp [dictContains]

theorem dictContains_dictErase_self (d : Dict) (k : String) :
    dictContains (dictErase d k) k = false := by
  simp only [dictContains, dictErase]
  rw [Bool.eq_false_iff]
  intro h
  rcases List.any_eq_true.mp h with ⟨p, hp, hpk⟩
  rcases List.mem_filter.mp hp with ⟨_, hne⟩
  exact absurd (by simpa using hpk) (by simpa using hne)

theorem dictContains_dictSet_of (d : Dict) (k v k2 : String) (h : dictContains d k2 = true) :
    dictContains (dictSet d k v) k2 = true := by
  rw [dictContains_iff] at h ⊢
  obtain ⟨p, hp, hpk⟩ := h
  unfold dictSet
  by_cases hc : dictContains d k
  · rw [if_pos hc]
    by_cases hpe : p.1 = k
    · exact ⟨(k, v), List.mem_map.mpr ⟨p, hp, by simp [hpe]⟩, by simpa [← hpe] using hpk⟩
    · exact ⟨p, List.mem_map.mpr ⟨p, hp, by simp [hpe]⟩, hpk⟩
  · rw [if_neg hc]
    exact ⟨p, List.mem_append_left _ hp, hpk⟩

/-! ### Helper lemmas on deduplication -/

theorem mem_dedupeAux (l : List Document) : ∀ (seen : List Document) (d : Document),
    d ∈ dedupeAux seen l ↔ d ∈ l ∧ d ∉ seen := by
  induction l with
  | nil => intro seen d; simp [dedupeAux]
  | cons a rest ih =>
    intro seen d
    by_cases ha : a ∈ seen
    · rw [dedupeAux, if_pos ha, ih seen d]
      simp only [List.mem_cons]
      constructor
      · exact fun h => ⟨Or.inr h.1, h.2⟩
      · rintro ⟨h | h, hn⟩
        · cases h; exact absurd ha hn
        · exact ⟨h, hn⟩
    · rw [dedupeAux, if_neg ha]
      simp only [List.mem_cons, ih (a :: seen) d]
      constructor
      · rintro (rfl | ⟨h1, h2⟩)
        · exact ⟨Or.inl rfl, ha⟩
        · exact ⟨Or.inr h1, fun hs => h2 (Or.inr hs)⟩
      · rintro ⟨h | h, hn⟩
        · exact Or.inl h
        · by_cases hda : d = a
          · exact Or.inl hda
          · refine Or.inr ⟨h, fun hs => ?_⟩
            rcases hs with h2 | h2
            · exact hda h2
            · exact hn h2

theorem dedupeAux_sublist (l : List Document) : ∀ seen, (dedupeAux seen l).Sublist l := by
  induction l with
  | nil => intro _; simp [dedupeAux]
  | cons a rest ih =>
    intro seen
    rw [dedupeAux]
    by_cases ha : a ∈ seen
    · rw [if_pos ha]; exact (ih seen).cons a
    · rw [if_neg ha]; exact (ih (a :: seen)).cons₂ a

theorem dedupeAux_nodup (l : List Document) : ∀ seen, (dedupeAux seen l).Nodup := by
  induction l with
  | nil => intro _; simp [dedupeAux]
  | cons a rest ih =>
    intro seen
    rw [dedupeAux]
    by_cases ha : a ∈ seen
    · rw [if_pos ha]; exact ih seen
    · rw [if_neg ha]
      refine List.nodup_cons.mpr ⟨?_, ih (a :: seen)⟩
      intro hmem
      exact ((mem_dedupeAux rest (a :: seen) a).mp hmem).2 (List.mem_cons_self a seen)

theorem dedupeAux_eq_self (l : List Document) : ∀ seen, l.Nodup → (∀ d ∈ l, d ∉ seen) →
    dedupeAux seen l = l := by
  induction l with
  | nil => intro _ _ _; rfl
  | cons a rest ih =>
    intro seen hnd hdisj
    rw [dedupeAux, if_neg (hdisj a (List.mem_cons_self a rest))]
    congr 1
    refine ih (a :: seen) (List.nodup_cons.mp hnd).2 ?_
    intro d hd hs
    rcases List.mem_cons.mp hs with rfl | h
    · exact (List.nodup_cons.mp hnd).1 hd
    · exact hdisj d (List.mem_cons_of_mem a hd) h

theorem remove_duplicates_idem (docs : List Document) :
    remove_duplicates (remove_duplicates docs) = remove_duplicates docs :=
  dedupeAux_eq_self _ [] (dedupeAux_nodup docs []) (fun d _ => List.not_mem_nil d)

theorem dedupeAux_eq_nil (ys : List Document) : ∀ seen, (∀ d ∈ ys, d ∈ seen) →
    dedupeAux seen ys = [] := by
  induction ys with
  | nil => intro _ _; rfl
  | cons a rest ih =>
    intro seen h
    rw [dedupeAux, if_pos (h a (List.mem_cons_self a rest))]
    exact ih seen (fun d hd => h d (List.mem_cons_of_mem a hd))

theorem dedupeAux_append_absorb : ∀ (xs seen ys : List Document),
    xs.Nodup → (∀ d ∈ xs, d ∉ seen) → (∀ d ∈ ys, d ∈ xs ∨ d ∈ seen) →
    dedupeAux seen (xs ++ ys) = xs := by
  intro xs
  induction xs with
  | nil =>
    intro seen ys _ _ hys
    refine dedupeAux_eq_nil ys seen (fun d hd => ?_)
    rcases hys d hd with h | h
    · exact absurd h (List.not_mem_nil d)
    · exact h
  | cons a rest ih =>
    intro seen ys hnd hdisj hys
    rw [List.cons_append, dedupeAux, if_neg (hdisj a (List.mem_cons_self a rest))]
    congr 1
    refine ih (a :: seen) ys (List.nodup_cons.mp hnd).2 ?_ ?_
    · intro d hd hs
      rcases List.mem_cons.mp hs with rfl | h
      · exact (List.nodup_cons.mp hnd).1 hd
      · exact hdisj d (List.mem_cons_of_mem a hd) h
    · intro d hd
      rcases hys d hd with h | h
      · rcases List.mem_cons.mp h with h2 | h2
        · exact Or.inr (by rw [h2]; exact List.mem_cons_self _ seen)
        · exact Or.inl h2
      · exact Or.inr (List.mem_cons_of_mem a h)

theorem dedupeAux_indexOf_lt (l : List Document) : ∀ (seen : List Document) (d1 d2 : Document),
    d1 ∈ l → d2 ∈ l → d1 ∉ seen → d2 ∉ seen → l.indexOf d1 < l.indexOf d2 →
    (dedupeAux seen l).indexOf d1 < (dedupeAux seen l).indexOf d2 := by
  induction l with
  | nil => intro seen d1 d2 h1; exact absurd h1 (List.not_mem_nil d1)
  | cons a rest ih =>
    intro seen d1 d2 h1 h2 hs1 hs2 hlt
    by_cases hd2a : d2 = a
    · rw [List.indexOf_cons_eq rest hd2a.symm] at hlt
      exact absurd hlt (Nat.not_lt_zero _)
    by_cases hd1a : d1 = a
    · subst hd1a
      rw [dedupeAux, if_neg hs1, List.indexOf_cons_self,
        List.indexOf_cons_ne _ (fun he => hd2a he.symm)]
      exact Nat.succ_pos _
    · have ha1 : a ≠ d1 := fun he => hd1a he.symm
      have ha2 : a ≠ d2 := fun he => hd2a he.symm
      rw [List.indexOf_cons_ne rest ha1, List.indexOf_cons_ne rest ha2] at hlt
      have hlt2 : rest.indexOf d1 < rest.indexOf d2 := Nat.succ_lt_succ_iff.mp hlt
      have h1r : d1 ∈ rest := by
        rcases List.mem_cons.mp h1 with h | h
        · exact absurd h hd1a
        · exact h
      have h2r : d2 ∈ rest := by
        rcases List.mem_cons.mp h2 with h | h
        · exact absurd h hd2a
        · exact h
      rw [dedupeAux]
      by_cases ha : a ∈ seen
      · rw [if_pos ha]
        exact ih seen d1 d2 h1r h2r hs1 hs2 hlt2
      · rw [if_neg ha, List.indexOf_cons_ne _ ha1, List.indexOf_cons_ne _ ha2]
        refine Nat.succ_lt_succ (ih (a :: seen) d1 d2 h1r h2r ?_ ?_ hlt2)
        · intro hs
          rcases List.mem_cons.mp hs with h | h
          · exact hd1a h
          · exact hs1 h
        · intro hs
          rcases List.mem_cons.mp hs with h | h
          · exact hd2a h
          · exact hs2 h

theorem remove_duplicates_indexOf_lt (X : List Document) (d1 d2 : Document)
    (h1 : d1 ∈ X) (h2 : d2 ∈ X) (hlt : X.indexOf d1 < X.indexOf d2) :
    (remove_duplicates X).indexOf d1 < (remove_duplicates X).indexOf d2 :=
  dedupeAux_indexOf_lt X [] d1 d2 h1 h2 (List.not_mem_nil d1) (List.not_mem_nil d2) hlt

/-! ### Helper lemmas on the heap model -/

theorem heapGet_append_left (h : Heap) (d : Dict) (r : Nat) (hr : r < h.length) :
    heapGet (h ++ [d]) r = heapGet h r := by
  simp [heapGet, List.getElem?_append_left hr]

theorem heapGet_heapSet_ne (h : Heap) (r1 r : Nat) (d : Dict) (hne : r1 ≠ r) :
    heapGet (heapSet h r1 d) r = heapGet h r := by
  simp [heapGet, heapSet, List.getElem?_set_ne hne]

theorem heapGet_freshSet (h : Heap) (d e : Dict) (r : Nat) (hr : r < h.length) :
    heapGet (heapSet (h ++ [d]) h.length e) r = heapGet h r :=
  (heapGet_heapSet_ne (h ++ [d]) h.length r e (Nat.ne_of_gt hr)).trans
    (heapGet_append_left h d r hr)

theorem remove_member_idH_frame (h : Heap) (rm r : Nat) (hr : r < h.length) :
    heapGet (remove_member_idH h rm).1 r = heapGet h r
    ∧ (remove_member_idH h rm).1.length = h.length + 1 := by
  simp only [remove_member_idH, heapAlloc]
  split
  · exact ⟨heapGet_freshSet h _ _ r hr, by simp [heapSet]⟩
  · exact ⟨heapGet_append_left h _ r hr, by simp⟩

theorem get_related_docs_scopeH_frame (h : Heap) (rm r : Nat) (hr : r < h.length) :
    heapGet (get_related_docs_scopeH h (some rm)).1 r = heapGet h r
    ∧ (get_related_docs_scopeH h (some rm)).1.length = h.length + 1 :=
  remove_member_idH_frame h rm r hr

theorem get_multiple_scopesH_frame (qs : List String) : ∀ (h : Heap) (rm r : Nat),
    r < h.length →
    heapGet (get_multiple_scopesH h qs (some rm)).1 r = heapGet h r
    ∧ h.length ≤ (get_multiple_scopesH h qs (some rm)).1.length := by
  induction qs with
  | nil => intro h rm r hr; exact ⟨rfl, Nat.le_refl _⟩
  | cons q rest ih =>
    intro h rm r hr
    have h1 := get_related_docs_scopeH_frame h rm r hr
    have h2 := ih (get_related_docs_scopeH h (some rm)).1 rm r
      (by rw [h1.2]; exact Nat.lt_succ_of_lt hr)
    refine ⟨Eq.trans ?_ (Eq.trans h2.1 h1.1), Nat.le_trans ?_ h2.2⟩
    · rfl
    · rw [h1.2]; exact Nat.le_succ _

theorem uhgH_frame (h : Heap) (r : Nat) (hr : r < h.length) :
    heapGet (get_related_docs_from_store_uhgH h (some r)).1 r = heapGet h r := by
  simp only [get_related_docs_from_store_uhgH, heapAlloc, Option.isNone_some, Bool.false_or,
    Option.getD_some]
  by_cases hc : dictContains (heapGet h r) "set_number"
  · rw [if_neg (by simp [hc])]
    have hrA : r < (h ++ [heapGet h r]).length := by
      simp only [List.length_append, List.length_cons, List.length_nil]
      omega
    have e1 : heapGet (heapSet (h ++ [heapGet h r]) h.length
          (dictSet (heapGet (h ++ [heapGet h r]) h.length) "data_source" "b360")) r
        = heapGet h r := heapGet_freshSet h _ _ r hr
    generalize hH1 : heapSet (h ++ [heapGet h r]) h.length
        (dictSet (heapGet (h ++ [heapGet h r]) h.length) "data_source" "b360") = H1 at e1
    have lH1 : H1.length = h.length + 1 := by
      rw [← hH1]; simp [heapSet]
    have hr1 : r < H1.length := by omega
    have e2 : heapGet (heapSet (H1 ++ [heapGet H1 r]) H1.length
          (dictSet (heapGet (H1 ++ [heapGet H1 r]) H1.length) "data_source" "kc")) r
        = heapGet H1 r := heapGet_freshSet H1 _ _ r hr1
    generalize hH2 : heapSet (H1 ++ [heapGet H1 r]) H1.length
        (dictSet (heapGet (H1 ++ [heapGet H1 r]) H1.length) "data_source" "kc") = H2 at e2
    have lH2 : H2.length = H1.length + 1 := by
      rw [← hH2]; simp [heapSet]
    have e3 : heapGet (if dictContains (heapGet H2 H1.length) "set_number" then
          heapSet H2 H1.length (dictErase (heapGet H2 H1.length) "set_number") else H2) r
        = heapGet H2 r := by
      split
      · exact heapGet_heapSet_ne H2 H1.length r _ (by omega)
      · rfl
    generalize hH3 : (if dictContains (heapGet H2 H1.length) "set_number" then
        heapSet H2 H1.length (dictErase (heapGet H2 H1.length) "set_number") else H2) = H3 at e3
    have lH3 : H3.length = H2.length := by
      rw [← hH3]; split
      · simp [heapSet]
      · rfl
    have hr3 : r < H3.length := by omega
    have e4 := (get_related_docs_scopeH_frame H3 h.length r hr3).1
    have l4 := (get_related_docs_scopeH_frame H3 h.length r hr3).2
    have hr4 : r < (get_related_docs_scopeH H3 (some h.length)).1.length := by omega
    have e5 := (get_related_docs_scopeH_frame (get_related_docs_scopeH H3 (some h.length)).1
      H1.length r hr4).1
    exact e5.trans (e4.trans (e3.trans (e2.trans e1)))
  · rw [if_pos (by simp [hc])]
    have hrA : r < (h ++ [[("data_source", "kc")]]).length := by
      simp only [List.length_append, List.length_cons, List.length_nil]
      omega
    exact ((get_related_docs_scopeH_frame (h ++ [[("data_source", "kc")]]) h.length r hrA).1).trans
      (heapGet_append_left h _ r hr)

/-! ### Claim theorems -/

/-- C4: the single-query retrieval is independent of the metadata scope:
for every store, query, and any two scopes, `get_related_docs_from_store`
returns the same document list, because the prepared filter is computed but
never forwarded to the similarity search or the MMR search. -/
theorem retrieve_ignores_metadata_scope (store : Chroma) (q : String) (m1 m2 : Option Dict) :
    get_related_docs_from_store store q m1 = get_related_docs_from_store store q m2 := rfl

/-- C7: `get_multiple_related_docs_from_store` on a single-element query
batch returns the same document list as the single-query retrieval for that
query. -/
theorem multi_query_singleton_eq_single (store : Chroma) (q : String) (metadata : Option Dict) :
    get_multiple_related_docs_from_store store [q] metadata
      = get_related_docs_from_store store q metadata := by
  have h : get_multiple_related_docs_from_store store [q] metadata
      = remove_duplicates (get_related_docs_from_store store q metadata) := by
    simp [get_multiple_related_docs_from_store]
  rw [h]
  exact remove_duplicates_idem _

/-- C8: deduplication is idempotent: for every input sequence of documents
`X`, `remove_duplicates (remove_duplicates X) = remove_duplicates X`. -/
theorem remove_duplicates_idempotent (X : List Document) :
    remove_duplicates (remove_duplicates X) = remove_duplicates X :=
  dedupeAux_eq_self _ [] (dedupeAux_nodup X []) (fun d _ => List.not_mem_nil d)

/-- C9: deduplication preserves first-seen order under (content, metadata)
structural equality: the output is an order-preserving subsequence of the
input, is duplicate-free, keeps exactly the members of the input (each by
its first occurrence), and whenever the first occurrence of `d1` precedes
the first occurrence of `d2` in the input, `d1` precedes `d2` in the
output. -/
theorem remove_duplicates_first_seen_order (X : List Document) (d1 d2 : Document)
    (h1 : d1 ∈ X) (h2 : d2 ∈ X) (hlt : X.indexOf d1 < X.indexOf d2) :
    (remove_duplicates X).Sublist X
    ∧ (remove_duplicates X).Nodup
    ∧ (∀ d, d ∈ remove_duplicates X ↔ d ∈ X)
    ∧ (remove_duplicates X).indexOf d1 < (remove_duplicates X).indexOf d2 := by
  refine ⟨dedupeAux_sublist X [], dedupeAux_nodup X [], ?_,
    remove_duplicates_indexOf_lt X d1 d2 h1 h2 hlt⟩
  intro d
  rw [remove_duplicates, mem_dedupeAux]
  simp

/-- Witness for C9 at the concrete input `[a, b, a]`. -/
theorem remove_duplicates_first_seen_order_witness :
    (remove_duplicates [Document.mk "a" [], Document.mk "b" [], Document.mk "a" []]).indexOf
        (Document.mk "a" [])
      < (remove_duplicates [Document.mk "a" [], Document.mk "b" [], Document.mk "a" []]).indexOf
        (Document.mk "b" []) :=
  (remove_duplicates_first_seen_order _ _ _ (by decide) (by decide) (by decide)).2.2.2

/-- C10: the provider returns the semantic retriever for the name
"semantic" and fails with the configuration error for every other name. -/
theorem provider_semantic_or_error (name : String) :
    (name = "semantic" →
      DocumentRetrieverProvider_call name = Except.ok DocumentRetrieverImpl.semantic)
    ∧ (name ≠ "semantic" →
      DocumentRetrieverProvider_call name = Except.error "Not implemented document retriver") := by
  constructor
  · intro h
    subst h
    rfl
  · intro h
    unfold DocumentRetrieverProvider_call
    rw [if_neg (by simpa using h)]

/-- Witness for C10 at the names "semantic" and "other". -/
theorem provider_semantic_or_error_witness :
    DocumentRetrieverProvider_call "semantic" = Except.ok DocumentRetrieverImpl.semantic
    ∧ DocumentRetrieverProvider_call "other" = Except.error "Not implemented document retriver" :=
  ⟨(provider_semantic_or_error "semantic").1 rfl,
   (provider_semantic_or_error "other").2 (by decide)⟩

/-- C5: filter preparation removes the reserved "member_id" key (so it is
never forwarded to the vector store) and translates the remainder into the
conjunctive predicate form exactly when more than one key remains; a
single-key (or empty) remainder is passed through untranslated. -/
theorem prepare_filter_strips_member_id (metadata : Dict) :
    dictContains (remove_member_id metadata) "member_id" = false
    ∧ (1 < (remove_member_id metadata).length →
        prepare_filter (some metadata) = FilterPredicate.conj (remove_member_id metadata))
    ∧ ((remove_member_id metadata).length ≤ 1 →
        prepare_filter (some metadata) = FilterPredicate.plain (remove_member_id metadata)) := by
  refine ⟨?_, ?_, ?_⟩
  · by_cases h : dictContains metadata "member_id"
    · simp only [remove_member_id, h, if_true]
      exact dictContains_dictErase_self metadata "member_id"
    · simp only [remove_member_id, if_neg h]
      exact Bool.eq_false_iff.mpr h
  · intro hlen
    simp [prepare_filter, convert_to_chroma_format, hlen]
  · intro hlen
    have hne : ¬ 1 < (remove_member_id metadata).length := by omega
    simp [prepare_filter, hne]

/-- Witness for C5 at a scope holding "member_id" and two further keys. -/
theorem prepare_filter_strips_member_id_witness :
    dictContains (remove_member_id [("member_id", "m"), ("a", "1"), ("b", "2")]) "member_id" = false
    ∧ prepare_filter (some [("member_id", "m"), ("a", "1"), ("b", "2")])
      = FilterPredicate.conj [("a", "1"), ("b", "2")] := by
  refine ⟨(prepare_filter_strips_member_id _).1, ?_⟩
  have h := (prepare_filter_strips_member_id [("member_id", "m"), ("a", "1"), ("b", "2")]).2.1
    (by decide)
  rw [h]
  decide

/-- C2: the single-query retrieval requests the top 50 similarity hits,
keeps the first 20 in ranked order, requests exactly 1 MMR hit with
trade-off coefficient 0.5, concatenates similarity results first and
deduplicates; when the first 20 similarity hits are distinct and every MMR
hit duplicates one of them, the result is exactly those 20 documents in
the original similarity order. -/
theorem retrieve_first20_absorbs_duplicate_mmr (store : Chroma) (q : String)
    (metadata : Option Dict)
    (hlen : 20 ≤ (store.similarity_search_with_score q 50).length)
    (hnodup : (((store.similarity_search_with_score q 50).take 20).map Prod.fst).Nodup)
    (hmmr : ∀ d ∈ store.max_marginal_relevance_search q 1 (1 / 2),
      d ∈ ((store.similarity_search_with_score q 50).take 20).map Prod.fst) :
    get_related_docs_from_store store q metadata
      = remove_duplicates ((((store.similarity_search_with_score q 50).take 20).map Prod.fst)
          ++ store.max_marginal_relevance_search q 1 (1 / 2))
    ∧ get_related_docs_from_store store q metadata
      = ((store.similarity_search_with_score q 50).take 20).map Prod.fst
    ∧ (get_related_docs_from_store store q metadata).length = 20 := by
  have habs : remove_duplicates ((((store.similarity_search_with_score q 50).take 20).map Prod.fst)
      ++ store.max_marginal_relevance_search q 1 (1 / 2))
      = ((store.similarity_search_with_score q 50).take 20).map Prod.fst :=
    dedupeAux_append_absorb _ [] _ hnodup (fun d _ => List.not_mem_nil d)
      (fun d hd => Or.inl (hmmr d hd))
  refine ⟨rfl, habs, ?_⟩
  have h2 : get_related_docs_from_store store q metadata
      = ((store.similarity_search_with_score q 50).take 20).map Prod.fst := habs
  rw [h2, List.length_map, List.length_take]
  omega

/-- Witness for C2 at the concrete scenario store: 50 similarity hits with
items 0-19 distinct and later items duplicating earlier ones, one MMR hit
duplicating item 3 — the result is exactly the 20 leading documents. -/
theorem retrieve_first20_absorbs_duplicate_mmr_witness :
    (get_related_docs_from_store witStore "q" none).length = 20
    ∧ get_related_docs_from_store witStore "q" none
      = ((witStore.similarity_search_with_score "q" 50).take 20).map Prod.fst :=
  ⟨(retrieve_first20_absorbs_duplicate_mmr witStore "q" none (by decide) (by decide)
      (by decide)).2.2,
   (retrieve_first20_absorbs_duplicate_mmr witStore "q" none (by decide) (by decide)
      (by decide)).2.1⟩

/-- C1: the routed retrieval issues the single-query retrieval once with
the forced default scope when the scope is absent, empty, or lacks
"set_number", and otherwise once per derived scope, in the order: the
b360-tagged copy keeping "set_number", then the kc-tagged copy with
"set_number" removed. -/
theorem uhg_routes_by_derived_scopes (store : Chroma) (q : String) (metadata : Option Dict) :
    get_related_docs_from_store_uhg store q metadata
      = ((routedScopesSpec metadata).map
          (fun m => get_related_docs_from_store store q (some m))).flatten
    ∧ (hasSetNumber metadata = false → routedScopesSpec metadata = [[("data_source", "kc")]])
    ∧ (∀ m, metadata = some m → dictContains m "set_number" = true →
        routedScopesSpec metadata
          = [dictSet m "data_source" "b360",
             dictErase (dictSet m "data_source" "kc") "set_number"]) := by
  refine ⟨?_, ?_, ?_⟩
  · cases metadata with
    | none => simp [get_related_docs_from_store_uhg, routedScopesSpec]
    | some m =>
      by_cases hsn : dictContains m "set_number"
      · have hkc := dictContains_dictSet_of m "data_source" "kc" "set_number" hsn
        simp [get_related_docs_from_store_uhg, routedScopesSpec, hsn, hkc]
      · simp [get_related_docs_from_store_uhg, routedScopesSpec, hsn]
  · intro hf
    cases metadata with
    | none => rfl
    | some m =>
      simp only [hasSetNumber] at hf
      simp [routedScopesSpec, hf]
  · intro m hm hsn
    subst hm
    simp [routedScopesSpec, hsn]

/-- Witness for C1 at the scope containing only "set_number": the derived
scopes are exactly the two the spec scenario names, in that order. -/
theorem uhg_routes_by_derived_scopes_witness :
    get_related_docs_from_store_uhg cexStore "q" (some [("set_number", "abc")])
      = ((routedScopesSpec (some [("set_number", "abc")])).map
          (fun m => get_related_docs_from_store cexStore "q" (some m))).flatten
    ∧ routedScopesSpec (some [("set_number", "abc")])
      = [[("set_number", "abc"), ("data_source", "b360")], [("data_source", "kc")]] := by
  constructor
  · exact (uhg_routes_by_derived_scopes cexStore "q" (some [("set_number", "abc")])).1
  · rw [(uhg_routes_by_derived_scopes cexStore "q" (some [("set_number", "abc")])).2.2
      [("set_number", "abc")] rfl (by decide)]
    decide

/-- C3 counterexample: the routed retrieval does not deduplicate the
concatenation: with a store returning one similarity hit and no MMR hit,
the routed retrieval on a scope containing "set_number" returns the same
document twice. -/
theorem uhg_not_deduplicated_cex :
    get_related_docs_from_store_uhg cexStore "q" (some [("set_number", "abc")])
      = [cexDoc, cexDoc]
    ∧ ¬ (get_related_docs_from_store_uhg cexStore "q" (some [("set_number", "abc")])).Nodup := by
  constructor
  · decide
  · decide

/-- C3 amended: for a scope containing "set_number", the routed retrieval
returns exactly the partition-A results followed by the partition-B
results — each half internally deduplicated by the single-query
retrieval — without deduplicating the concatenation itself. -/
theorem uhg_concat_halves_amended (store : Chroma) (q : String) (m : Dict)
    (hsn : dictContains m "set_number" = true) :
    get_related_docs_from_store_uhg store q (some m)
      = get_related_docs_from_store store q (some (dictSet m "data_source" "b360"))
        ++ get_related_docs_from_store store q
            (some (dictErase (dictSet m "data_source" "kc") "set_number"))
    ∧ (get_related_docs_from_store store q (some (dictSet m "data_source" "b360"))).Nodup
    ∧ (get_related_docs_from_store store q
        (some (dictErase (dictSet m "data_source" "kc") "set_number"))).Nodup := by
  have hkc := dictContains_dictSet_of m "data_source" "kc" "set_number" hsn
  refine ⟨?_, dedupeAux_nodup _ [], dedupeAux_nodup _ []⟩
  simp [get_related_docs_from_store_uhg, hsn, hkc]

/-- Witness for C3's amended claim at a concrete store and scope. -/
theorem uhg_concat_halves_amended_witness :
    get_related_docs_from_store_uhg cexStore "q" (some [("set_number", "abc")])
      = get_related_docs_from_store cexStore "q"
          (some [("set_number", "abc"), ("data_source", "b360")])
        ++ get_related_docs_from_store cexStore "q" (some [("data_source", "kc")]) := by
  rw [(uhg_concat_halves_amended cexStore "q" [("set_number", "abc")] (by decide)).1]
  decide

/-- C6: no retrieval operation mutates the caller-supplied metadata scope:
over the heap model of the dict operations the retrievals perform, the
dict at the caller's address is unchanged after `remove_member_id`, after
the single-query scope handling, after the multi-query loop, and after the
routed retrieval, because every mutation happens on a deep copy. -/
theorem retrieval_does_not_mutate_caller_scope (h : Heap) (r : Nat) (qs : List String)
    (hr : r < h.length) :
    heapGet (remove_member_idH h r).1 r = heapGet h r
    ∧ heapGet (get_related_docs_scopeH h (some r)).1 r = heapGet h r
    ∧ heapGet (get_multiple_scopesH h qs (some r)).1 r = heapGet h r
    ∧ heapGet (get_related_docs_from_store_uhgH h (some r)).1 r = heapGet h r :=
  ⟨(remove_member_idH_frame h r r hr).1,
   (get_related_docs_scopeH_frame h r r hr).1,
   (get_multiple_scopesH_frame qs h r r hr).1,
   uhgH_frame h r hr⟩

/-- Witness for C6 at a one-dict heap holding "member_id" and "set_number". -/
theorem retrieval_does_not_mutate_caller_scope_witness :
    heapGet (remove_member_idH [[("member_id", "x"), ("set_number", "abc")]] 0).1 0
      = [("member_id", "x"), ("set_number", "abc")]
    ∧ heapGet (get_related_docs_from_store_uhgH [[("member_id", "x"), ("set_number", "abc")]]
        (some 0)).1 0
      = [("member_id", "x"), ("set_number", "abc")] := by
  have h := retrieval_does_not_mutate_caller_scope [[("member_id", "x"), ("set_number", "abc")]]
    0 ["q1", "q2"] (by decide)
  refine ⟨?_, ?_⟩
  · rw [h.1]
    decide
  · rw [h.2.2.2]
    decide
